import Mathlib

set_option autoImplicit false

/-!
# Verification of the `ib` deduplicated backup engine

Shallow embedding of the Go sources of `tulpenhaendler/ib`:

* `internal/storage/storage.go` — block/manifest/reference schema,
  inline-vs-external routing, orphan GC, pruning.
* `internal/backup/creator.go` — incremental backup creation.
* the restore path: `Restorer.restoreFile`, the client's
  `decompressingFetcher.DownloadBlock` and the server's `handleGetBlock`.
* `internal/server/server.go` + the rate limiter — authentication middleware.
* `internal/server/api.go` — block upload handler and archive streaming paths.

Bytes are modelled as `Nat`, Go `int64` as `Int`, SQL tables as association
lists keyed by their primary key, and the S3 object store as an association
list from object key to bytes.
-/

/-- A byte of file or block content. -/
abbrev Byte := Nat

/-- `InlineThreshold` from `internal/storage/storage.go` line 17:
`256 * 1024` bytes; blocks whose stored length is strictly below it are kept
inline in SQLite. -/
def InlineThreshold : Nat := 256 * 1024

/-- One row of the `blocks` table
(`internal/storage/storage.go`, schema lines 67-74).
`inlineData = none` models SQL NULL; in rows written by `SaveBlock` the
`s3Key` column of an inline row holds the empty string, mirroring the Go
zero value that is bound for it. -/
structure BlockRow where
  size : Nat
  originalSize : Int
  inlineData : Option (List Byte)
  s3Key : String
  createdAt : Int
deriving DecidableEq, Repr

/-- The relational state of the storage engine plus the external object
store.  `manifests` keeps `(id, created_at)` — the tag JSON and the data
blob play no role in the claims below.  `blockRefs` is the `block_refs`
table as `(manifest_id, cid)` pairs. -/
structure StorageState where
  blocks : List (String × BlockRow)
  manifests : List (String × Int)
  blockRefs : List (String × String)
  s3 : List (String × List Byte)
deriving DecidableEq, Repr

/-- The empty database and empty bucket. -/
def emptyStorage : StorageState := ⟨[], [], [], []⟩

/-- `S3Client.Put` (storage.go lines 424-431): an S3 put overwrites the
object stored under `key`. -/
def s3Put (s3 : List (String × List Byte)) (key : String) (data : List Byte) :
    List (String × List Byte) :=
  s3.filter (fun p => p.1 != key) ++ [(key, data)]

/-- `Storage.SaveBlock` (`internal/storage/storage.go` lines 104-126).
If `len(data) < InlineThreshold` the bytes are carried inline and the
object store is untouched; otherwise the bytes are first uploaded to S3
under key `cid` and the row records `s3Key = cid` with NULL inline data.
The row insert has `INSERT OR IGNORE` semantics: an existing `cid` row is
left untouched. -/
def SaveBlock (st : StorageState) (cid : String) (data : List Byte)
    (originalSize : Int) (now : Int) : StorageState :=
  let inlineData : Option (List Byte) :=
    if data.length < InlineThreshold then some data else none
  let s3Key : String := if data.length < InlineThreshold then "" else cid
  let s3 := if data.length < InlineThreshold then st.s3 else s3Put st.s3 cid data
  let row : BlockRow := ⟨data.length, originalSize, inlineData, s3Key, now⟩
  { st with
    s3 := s3
    blocks :=
      if (st.blocks.lookup cid).isSome then st.blocks
      else st.blocks ++ [(cid, row)] }

/-- `Storage.GetBlock` (storage.go lines 129-153): inline bytes if present,
else the object fetched from S3 under the stored key; `none` models the
"not found" error. -/
def GetBlock (st : StorageState) (cid : String) : Option (List Byte) :=
  match st.blocks.lookup cid with
  | none => none
  | some row =>
    match row.inlineData with
    | some d => some d
    | none => if row.s3Key != "" then st.s3.lookup row.s3Key else none

/-- `Storage.BlockExists` (storage.go lines 156-160). -/
def BlockExists (st : StorageState) (cid : String) : Bool :=
  (st.blocks.lookup cid).isSome

/-- `Storage.DeleteManifest` (storage.go lines 259-265): a single
`DELETE FROM manifests WHERE id = ?`.  The schema declares
`ON DELETE CASCADE` on `block_refs` (line 87), but the connection opened
at storage.go line 31 sets only `busy_timeout` and `journal_mode` in the
DSN and the code never issues `PRAGMA foreign_keys` — SQLite leaves
foreign-key enforcement OFF by default, so the cascade is inert and the
manifest's `block_refs` rows stay behind.  No orphan GC step runs here
either. -/
def DeleteManifest (st : StorageState) (id : String) : StorageState :=
  { st with manifests := st.manifests.filter (fun m => m.1 != id) }

/-- `Storage.pruneOrphanedBlocksLocked` (storage.go lines 285-331): the
left-join-is-null scan collects every block with no `block_refs` row for
its cid, deletes the S3 objects of those that carry a non-empty `s3_key`,
then deletes the block rows. -/
def pruneOrphanedBlocks (st : StorageState) : StorageState :=
  let keep : String × BlockRow → Bool :=
    fun b => st.blockRefs.any (fun r => r.2 == b.1)
  let orphans := st.blocks.filter (fun b => !(keep b))
  { st with
    s3 := st.s3.filter
      (fun o => !(orphans.any (fun b => b.2.s3Key != "" && b.2.s3Key == o.1)))
    blocks := st.blocks.filter keep }

/-- `Storage.PruneManifests` (storage.go lines 268-282): delete every
manifest with `created_at < cutoff`, then run the orphan GC.  As in
`DeleteManifest`, the declared cascade on `block_refs` never fires
(foreign-key enforcement is not enabled), so the pruned manifests'
reference rows survive — and keep their blocks alive through the GC's
left join. -/
def PruneManifests (st : StorageState) (cutoff : Int) : StorageState :=
  pruneOrphanedBlocks
    { st with
      manifests := st.manifests.filter (fun m => !(decide (m.2 < cutoff))) }

/-- Looking up the key just appended to an association list in which it was
absent yields the appended value. -/
theorem lookup_append_fresh {α : Type} (l : List (String × α)) (k : String) (v : α)
    (h : l.lookup k = none) : (l ++ [(k, v)]).lookup k = some v := by
  induction l with
  | nil => simp [List.lookup]
  | cons p rest ih =>
    rw [List.cons_append, List.lookup]
    rw [List.lookup] at h
    by_cases hk : k == p.1
    · simp [hk] at h
    · simp only [hk]
      exact ih (by simpa [hk] using h)

/-- `INSERT OR IGNORE`: when the cid row already exists, the `blocks`
table is unchanged by `SaveBlock`. -/
theorem SaveBlock_blocks_of_present (st : StorageState) (cid : String)
    (data : List Byte) (osz now : Int)
    (h : (st.blocks.lookup cid).isSome) :
    (SaveBlock st cid data osz now).blocks = st.blocks := by
  simp [SaveBlock, h]

/-- After `SaveBlock` the row for `cid` exists. -/
theorem lookup_SaveBlock_isSome (st : StorageState) (cid : String)
    (data : List Byte) (osz now : Int) :
    ((SaveBlock st cid data osz now).blocks.lookup cid).isSome := by
  unfold SaveBlock
  by_cases h : (st.blocks.lookup cid).isSome
  · simp [h]
  · simp only [h, if_false]
    rcases ho : st.blocks.lookup cid with _ | row
    · simp [lookup_append_fresh _ _ _ ho]
    · simp [ho] at h

/-- `s3Put` stores the data under the key. -/
theorem lookup_s3Put (s3 : List (String × List Byte)) (key : String)
    (data : List Byte) : (s3Put s3 key data).lookup key = some data := by
  unfold s3Put
  induction s3 with
  | nil => simp [List.lookup]
  | cons p rest ih =>
    obtain ⟨k, v⟩ := p
    by_cases hk : k = key
    · have hf : (k != key) = false := by simp [hk]
      simpa [List.filter_cons, hf] using ih
    · have ht : (k != key) = true := by simp [hk]
      have hke : (key == k) = false := by
        simp only [beq_eq_false_iff_ne, ne_eq]
        exact fun he => hk he.symm
      simp only [List.filter_cons, ht, if_true, List.cons_append, List.lookup, hke]
      exact ih

/-- **C4** — Inline-vs-external routing.  For every `SaveBlock(cid, data,
original_size)`: if `len(data)` is strictly below 256 KiB the inserted row
carries the bytes inline (empty `s3_key`) and the object store is
untouched; if `len(data)` is at or above 256 KiB (the boundary included)
the bytes are uploaded to the object store under key `cid` and the
inserted row stores object key `cid` with no inline bytes. -/
theorem C4_inline_external_routing (st : StorageState) (cid : String)
    (data : List Byte) (osz now : Int) :
    (data.length < InlineThreshold →
      (SaveBlock st cid data osz now).s3 = st.s3 ∧
      (st.blocks.lookup cid = none →
        (SaveBlock st cid data osz now).blocks =
          st.blocks ++ [(cid, ⟨data.length, osz, some data, "", now⟩)])) ∧
    (InlineThreshold ≤ data.length →
      (SaveBlock st cid data osz now).s3 = s3Put st.s3 cid data ∧
      ((SaveBlock st cid data osz now).s3).lookup cid = some data ∧
      (st.blocks.lookup cid = none →
        (SaveBlock st cid data osz now).blocks =
          st.blocks ++ [(cid, ⟨data.length, osz, none, cid, now⟩)])) := by
  constructor
  · intro hlt
    refine ⟨by simp [SaveBlock, hlt], fun hfresh => ?_⟩
    simp [SaveBlock, hlt, hfresh]
  · intro hge
    have hlt : ¬ data.length < InlineThreshold := not_lt.mpr hge
    refine ⟨by simp [SaveBlock, hlt], ?_, fun hfresh => ?_⟩
    · simp [SaveBlock, hlt, lookup_s3Put]
    · simp [SaveBlock, hlt, hfresh]

/-- Witness for C4: a 3-byte block is stored inline with the bucket
untouched, and a block of exactly 256 KiB (the threshold itself) is
uploaded to the bucket under its cid with no inline bytes. -/
theorem C4_witness :
    ((SaveBlock emptyStorage "a" [1, 2, 3] 3 0).s3 = emptyStorage.s3 ∧
      (SaveBlock emptyStorage "a" [1, 2, 3] 3 0).blocks =
        emptyStorage.blocks ++ [("a", ⟨3, 3, some [1, 2, 3], "", 0⟩)]) ∧
    ((SaveBlock emptyStorage "b" (List.replicate (256 * 1024) 0) 999 0).s3 =
        s3Put emptyStorage.s3 "b" (List.replicate (256 * 1024) 0) ∧
      (SaveBlock emptyStorage "b" (List.replicate (256 * 1024) 0) 999 0).blocks =
        emptyStorage.blocks ++
          [("b", ⟨(List.replicate (256 * 1024) 0).length, 999, none, "b", 0⟩)]) := by
  have hge : InlineThreshold ≤ (List.replicate (256 * 1024) (0 : Byte)).length := by
    rw [List.length_replicate]
    exact Nat.le_refl _
  have h1 := (C4_inline_external_routing emptyStorage "a" [1, 2, 3] 3 0).1
    (by decide)
  have h2 := (C4_inline_external_routing emptyStorage "b"
    (List.replicate (256 * 1024) 0) 999 0).2 hge
  exact ⟨⟨h1.1, h1.2 rfl⟩, ⟨h2.1, h2.2.2 rfl⟩⟩

/-- **C6** — SaveBlock idempotence on the metadata store: a second
`SaveBlock` with the same cid (whatever data, original size or timestamp it
carries) leaves the `blocks` table exactly as it was after the first call;
the existing row is neither duplicated nor modified. -/
theorem C6_saveblock_idempotent (st : StorageState) (cid : String)
    (d₁ : List Byte) (o₁ n₁ : Int) (d₂ : List Byte) (o₂ n₂ : Int) :
    (SaveBlock (SaveBlock st cid d₁ o₁ n₁) cid d₂ o₂ n₂).blocks =
      (SaveBlock st cid d₁ o₁ n₁).blocks :=
  SaveBlock_blocks_of_present (SaveBlock st cid d₁ o₁ n₁) cid d₂ o₂ n₂
    (lookup_SaveBlock_isSome st cid d₁ o₁ n₁)

/-- Orphan GC leaves only referenced blocks behind: every surviving block
row has at least one `block_refs` row for its cid. -/
theorem pruneOrphanedBlocks_no_orphans (st : StorageState) :
    ∀ cid row, (cid, row) ∈ (pruneOrphanedBlocks st).blocks →
      ∃ m, (m, cid) ∈ (pruneOrphanedBlocks st).blockRefs := by
  intro cid row hmem
  simp only [pruneOrphanedBlocks] at hmem ⊢
  obtain ⟨hin, hkeep⟩ := List.mem_filter.mp hmem
  obtain ⟨r, hr, hbeq⟩ := List.any_eq_true.mp hkeep
  obtain ⟨rm, rc⟩ := r
  have hc : rc = cid := by simpa using hbeq
  exact ⟨rm, hc ▸ hr⟩

/-- A concrete state: one manifest `m` referencing one inline block `c`. -/
def c3State : StorageState :=
  { blocks := [("c", ⟨2, 2, some [7, 7], "", 0⟩)]
    manifests := [("m", 0)]
    blockRefs := [("m", "c")]
    s3 := [] }

/-- A state holding a block row with no reference at all, as arises by
design between `SaveBlock` and `SaveManifest`. -/
def c3OrphanState : StorageState :=
  { blocks := [("d", ⟨1, 1, some [9], "", 0⟩)]
    manifests := [("m", 0)]
    blockRefs := []
    s3 := [] }

/-- **C3** — the orphan-GC claim is a code bug.  The program never enables
SQLite foreign-key enforcement (the DSN at storage.go line 31 sets only
`busy_timeout` and `journal_mode`), so the `ON DELETE CASCADE` declared on
`block_refs` — and asserted by the comment "block_refs will cascade
delete" at storage.go line 272 — is inert.  Evaluating the code: on
`c3State` (one manifest `m` referencing one block `c`), `DeleteManifest`
leaves the `block_refs` row behind and runs no GC, and `PruneManifests`
with a future cutoff removes the manifest while the stale reference keeps
the block row alive through the GC's left join — so neither "deleting a
manifest removes its block_refs rows" nor "pruning with a cutoff in the
future removes all blocks" holds.  On `c3OrphanState`, a block row without
any referencing `block_refs` row survives `DeleteManifest` untouched,
refuting the claim's postcondition for explicit deletes as well. -/
theorem C3_orphan_gc_code_bug :
    (DeleteManifest c3State "m").blockRefs = [("m", "c")] ∧
    (DeleteManifest c3State "m").blocks =
      [("c", ⟨2, 2, some [7, 7], "", 0⟩)] ∧
    (PruneManifests c3State 1).manifests = [] ∧
    (PruneManifests c3State 1).blockRefs = [("m", "c")] ∧
    (PruneManifests c3State 1).blocks =
      [("c", ⟨2, 2, some [7, 7], "", 0⟩)] ∧
    (DeleteManifest c3OrphanState "m").blocks =
      [("d", ⟨1, 1, some [9], "", 0⟩)] ∧
    (DeleteManifest c3OrphanState "m").blockRefs = [] := by
  decide

/-- `ChunkSize`: fixed chunk window of 8 MiB (spec §4.2; referenced from
src as `backup.ChunkSize`). -/
def ChunkSize : Nat := 8 * 1024 * 1024

/-- Fuel-driven splitting of a byte list into successive windows of
`csize` bytes (the final window may be shorter).  The fuel is the input
length, enough since every step consumes at least one byte when
`0 < csize`. -/
def chunkWindowsAux (csize : Nat) : Nat → List Byte → List (List Byte)
  | 0, _ => []
  | _ + 1, [] => []
  | fuel + 1, x :: xs =>
    (x :: xs).take csize :: chunkWindowsAux csize fuel ((x :: xs).drop csize)

/-- Modelled from the spec: the chunker (`backup.Chunker.ChunkFile`) is not
under src/ — only its callers are.  Spec §4.2: read sequentially in fixed
windows of `CHUNK_SIZE = 8 MiB`; the final window may be shorter; an empty
input yields no windows. -/
def chunkWindows (csize : Nat) (b : List Byte) : List (List Byte) :=
  chunkWindowsAux csize b.length b

theorem chunkWindowsAux_nil (csize : Nat) :
    ∀ fuel, chunkWindowsAux csize fuel [] = [] := by
  intro fuel
  cases fuel <;> rfl

/-- A nonempty input no longer than the window is a single chunk. -/
theorem chunkWindows_single (csize : Nat) (b : List Byte)
    (hne : b ≠ []) (hle : b.length ≤ csize) :
    chunkWindows csize b = [b] := by
  cases b with
  | nil => exact absurd rfl hne
  | cons x xs =>
    show chunkWindowsAux csize (xs.length + 1) (x :: xs) = [x :: xs]
    rw [chunkWindowsAux, List.take_of_length_le hle,
      List.drop_eq_nil_of_le hle, chunkWindowsAux_nil]

/-- Modelled from the spec: the LZ4 compressor (`backup.CompressBlock`,
`backup.Compress`, `backup.Decompress`) is not under src/.  §4.1 contract:
`compress` returns something shorter than the input or the raw input
itself; `decompress(src, original_size)` returns `src` verbatim when
`len(src) == original_size` and otherwise inverts `compress`.
`toyCompress`/`toyDecompress` is one conforming instance (run-length for
constant inputs of length ≥ 3), used to run the pipeline on concrete
inputs; the conformance theorems below check the §4.1 laws. -/
def toyCompress (b : List Byte) : List Byte :=
  if 3 ≤ b.length ∧ b = List.replicate b.length (b.headD 0) then
    [b.headD 0, b.length]
  else b

/-- Companion of `toyCompress`; see its docstring. -/
def toyDecompress (src : List Byte) (originalSize : Nat) : List Byte :=
  if src.length = originalSize then src
  else
    match src with
    | [v, n] => List.replicate n v
    | _ => src

/-- §4.1 raw passthrough law: `Decompress(B, len(B)) == B`. -/
theorem toyDecompress_raw (b : List Byte) : toyDecompress b b.length = b := by
  simp [toyDecompress]

/-- §4.1 inversion law: `Decompress(Compress(B), len(B)) == B`. -/
theorem toyDecompress_toyCompress (b : List Byte) :
    toyDecompress (toyCompress b) b.length = b := by
  unfold toyCompress
  by_cases h : 3 ≤ b.length ∧ b = List.replicate b.length (b.headD 0)
  · rw [if_pos h]
    unfold toyDecompress
    rw [if_neg (by simp; omega)]
    exact h.2.symm
  · rw [if_neg h]
    exact toyDecompress_raw b

/-- One emission of the chunker: `(cid, compressed_bytes, original_size)`
(spec §4.2, consumed by creator.go as `chunk.CID`, `chunk.Data`,
`chunk.OriginalSize`). -/
structure FileChunk where
  cid : String
  data : List Byte
  originalSize : Int
deriving DecidableEq, Repr

/-- Modelled from the spec (§4.2): the chunker is not under src/ — per
8 MiB window it emits the CID of the uncompressed bytes, the compressed
bytes, and the original (uncompressed) window length.  The CID generator
(`cid.Generate`, src/unnamed/part_003, SHA-256 → CIDv1) and the compressor
enter as the parameters `cid` and `comp`: the theorems below hold for
every such function, in particular for the real ones. -/
def chunkFile (cid : List Byte → String) (comp : List Byte → List Byte)
    (b : List Byte) : List FileChunk :=
  (chunkWindows ChunkSize b).map (fun w => ⟨cid w, comp w, (w.length : Int)⟩)

/-- A manifest file entry as built by `Creator.Create`
(`backup.Entry`, internal/config/config.go second file, lines 200-208,
restricted to the fields the file pipeline uses; dir/symlink-only fields
are elided).  `blocks = none` models the Go nil slice — creator.go line
202 uses the nil slice to mark unreadable files and line 228 filters on
`entry.Blocks != nil`. -/
structure Entry where
  path : String
  mtime : Int
  size : Int
  blocks : Option (List String)
deriving DecidableEq, Repr

/-- Go `append` on a nil-able slice: appending to nil allocates a non-nil
slice.  creator.go builds the per-file `blocks` slice this way from the
`var blocks []string` zero value. -/
def goAppend (blocks : Option (List String)) (c : String) : Option (List String) :=
  match blocks with
  | none => some [c]
  | some l => some (l ++ [c])

/-- The chunk loop of `Creator.Create` (creator.go lines 160-195): for each
chunk, probe `BlockExists` on the server; upload only when absent; append
the cid to the block list either way.  The server's answer is abstracted
as the pure predicate `onServer`.  Returns the final block slice, the
probed cids in order, and the uploaded cids in order. -/
def processChunksGo (onServer : String → Bool) (blocks : Option (List String))
    (probed uploaded : List String) :
    List FileChunk → Option (List String) × List String × List String
  | [] => (blocks, probed, uploaded)
  | c :: rest =>
    processChunksGo onServer (goAppend blocks c.cid) (probed ++ [c.cid])
      (if onServer c.cid then uploaded else uploaded ++ [c.cid]) rest

/-- Entry point of the chunk loop with the zero-valued accumulators of
creator.go (nil `blocks` slice, no calls made yet). -/
def processChunks (onServer : String → Bool) (chunks : List FileChunk) :
    Option (List String) × List String × List String :=
  processChunksGo onServer none [] [] chunks

/-- The per-file decision of `Creator.Create` (creator.go lines 116-210):
`prev` is the prior manifest's entry at this path (`prevIndex[entry.Path]`)
when one exists.  On an mtime+size match the prior block list is inherited
verbatim and `SkippedFiles` is incremented (the returned `Nat`), with no
chunking, probing or uploading; otherwise the file is chunked and run
through the probe/upload loop. -/
def creatorFileStep (prev : Option Entry) (cur : Entry)
    (onServer : String → Bool) (chunks : List FileChunk) :
    Entry × List String × List String × Nat :=
  match prev with
  | some p =>
    if p.mtime = cur.mtime ∧ p.size = cur.size then
      ({ cur with blocks := p.blocks }, [], [], 1)
    else
      let r := processChunks onServer chunks
      ({ cur with blocks := r.1 }, r.2.1, r.2.2, 0)
  | none =>
    let r := processChunks onServer chunks
    ({ cur with blocks := r.1 }, r.2.1, r.2.2, 0)

/-- creator.go lines 227-231: only file entries whose block slice is
non-nil are added to the manifest (the nil slice marks a file that could
not be read — and, as C2 shows, also every empty file). -/
def manifestFileEntries (entries : List Entry) : List Entry :=
  entries.filter (fun e => e.blocks.isSome)

theorem foldl_goAppend_some (chunks : List FileChunk) :
    ∀ l : List String,
      chunks.foldl (fun b c => goAppend b c.cid) (some l) =
        some (l ++ chunks.map (fun c => c.cid)) := by
  induction chunks with
  | nil => intro l; simp
  | cons c rest ih =>
    intro l
    rw [List.foldl_cons, show goAppend (some l) c.cid = some (l ++ [c.cid]) from rfl,
      ih]
    simp

theorem processChunksGo_spec (onServer : String → Bool)
    (chunks : List FileChunk) :
    ∀ blocks probed uploaded,
      processChunksGo onServer blocks probed uploaded chunks =
        (chunks.foldl (fun b c => goAppend b c.cid) blocks,
         probed ++ chunks.map (fun c => c.cid),
         uploaded ++
           (chunks.filter (fun c => !(onServer c.cid))).map (fun c => c.cid)) := by
  induction chunks with
  | nil => intro blocks probed uploaded; simp [processChunksGo]
  | cons c rest ih =>
    intro blocks probed uploaded
    rw [processChunksGo, ih]
    by_cases h : onServer c.cid
    · simp [h, List.filter_cons]
    · simp [h, List.filter_cons]

/-- The chunk loop, characterized: the resulting block list is the chunk
cids in emission order (nil when there was no chunk), every chunk is
probed, and exactly the absent ones are uploaded. -/
theorem processChunks_spec (onServer : String → Bool)
    (chunks : List FileChunk) :
    processChunks onServer chunks =
      ((if chunks.isEmpty then none
        else some (chunks.map (fun c => c.cid))),
       chunks.map (fun c => c.cid),
       (chunks.filter (fun c => !(onServer c.cid))).map (fun c => c.cid)) := by
  unfold processChunks
  rw [processChunksGo_spec]
  cases chunks with
  | nil => simp
  | cons c rest =>
    simp only [List.isEmpty_cons, if_false, List.foldl_cons, List.nil_append]
    rw [show goAppend none c.cid = some [c.cid] from rfl, foldl_goAppend_some]
    simp

/-- **C5** — Incremental skip.  When a prior manifest entry exists at the
file's path with identical mtime and identical size, the new entry
inherits the prior block list verbatim, nothing is probed or uploaded (no
chunker output is consumed), and the skipped-files counter is incremented.
Otherwise the file's chunks are all probed, exactly the absent ones are
uploaded, and the entry's block list is the chunk cids in order. -/
theorem C5_incremental_skip (prev : Option Entry) (cur : Entry)
    (onServer : String → Bool) (chunks : List FileChunk) :
    (∀ p, prev = some p → p.mtime = cur.mtime → p.size = cur.size →
      creatorFileStep prev cur onServer chunks =
        ({ cur with blocks := p.blocks }, [], [], 1)) ∧
    ((∀ p, prev = some p → ¬(p.mtime = cur.mtime ∧ p.size = cur.size)) →
      creatorFileStep prev cur onServer chunks =
        ({ cur with
            blocks :=
              if chunks.isEmpty then none
              else some (chunks.map (fun c => c.cid)) },
         chunks.map (fun c => c.cid),
         (chunks.filter (fun c => !(onServer c.cid))).map (fun c => c.cid),
         0)) := by
  constructor
  · intro p hp hm hs
    subst hp
    simp [creatorFileStep, hm, hs]
  · intro hns
    cases prev with
    | none =>
      simp only [creatorFileStep]
      rw [processChunks_spec]
    | some p =>
      have := hns p rfl
      simp only [creatorFileStep, if_neg this]
      rw [processChunks_spec]

/-- Witness for C5: a file with an unchanged prior entry (mtime 5, size 7)
is skipped with its two prior blocks inherited; a file with no prior entry
and two chunks, one already on the server, probes both and uploads only
the absent one. -/
theorem C5_witness :
    creatorFileStep (some ⟨"f", 5, 7, some ["b1", "b2"]⟩) ⟨"f", 5, 7, none⟩
        (fun _ => false) [⟨"c1", [1], 1⟩] =
      (⟨"f", 5, 7, some ["b1", "b2"]⟩, [], [], 1) ∧
    creatorFileStep none ⟨"g", 9, 2, none⟩ (fun c => c == "c1")
        [⟨"c1", [1], 1⟩, ⟨"c2", [2], 1⟩] =
      (⟨"g", 9, 2, some ["c1", "c2"]⟩, ["c1", "c2"], ["c2"], 0) := by
  constructor
  · exact (C5_incremental_skip (some ⟨"f", 5, 7, some ["b1", "b2"]⟩)
      ⟨"f", 5, 7, none⟩ (fun _ => false) [⟨"c1", [1], 1⟩]).1
      ⟨"f", 5, 7, some ["b1", "b2"]⟩ rfl rfl rfl
  · have h := (C5_incremental_skip none ⟨"g", 9, 2, none⟩ (fun c => c == "c1")
      [⟨"c1", [1], 1⟩, ⟨"c2", [2], 1⟩]).2 (fun p hp => nomatch hp)
    rw [h]
    decide

/-- `Restorer.restoreFile` (src/unnamed/part_002 lines 89-148), output
bytes only: when the entry has no blocks (the Go nil slice has length 0)
an empty file is written; otherwise each block is fetched through the
`BlockFetcher` and the fetched byte slices are written to the file in
block-index order — verbatim, with no decompression step. -/
def restoreFileBytes (fetch : String → Option (List Byte))
    (blocks : Option (List String)) : Option (List Byte) :=
  let bs := blocks.getD []
  if bs.isEmpty then some []
  else (bs.mapM fetch).map (fun parts => parts.flatten)

/-- The fetcher the restore command wires in (src/unnamed/part_006 lines
104-117): `decompressingFetcher.DownloadBlock` calls
`client.DownloadBlock`, which returns the body of `GET /api/blocks/:cid`;
`Server.handleGetBlock` (api.go 159-175) serves `Storage.GetBlock`'s
stored — possibly compressed — bytes.  The wrapper returns them as-is. -/
def decompressingFetcherDownload (st : StorageState) (cid : String) :
    Option (List Byte) := GetBlock st cid

/-- The upload side of `Creator.Create` for one file against a server
state: per chunk, probe `BlockExists` and `SaveBlock` only when absent
(creator.go lines 174-195 composed with `client.UploadBlock`,
`Server.handleUploadBlock` and `Storage.SaveBlock`); the block list
collects the cids in chunk order. -/
def backupFile (cid : List Byte → String) (comp : List Byte → List Byte)
    (st : StorageState) (b : List Byte) (now : Int) :
    StorageState × List String :=
  (chunkFile cid comp b).foldl
    (fun acc c =>
      (if BlockExists acc.1 c.cid then acc.1
       else SaveBlock acc.1 c.cid c.data c.originalSize now,
       acc.2 ++ [c.cid]))
    (st, [])

/-- **C2** — the empty-file boundary is a code bug.  An empty file yields
zero chunks, so the per-file block slice stays the Go nil slice, and the
`entry.Blocks != nil` filter of creator.go lines 227-231 — meant to elide
unreadable files — elides the empty file from the manifest as well: the
claimed entry with an empty block list and size 0 is never created.  The
restore half of the claim does hold: `restoreFile` recreates an entry
without blocks as an empty file. -/
theorem C2_empty_file_code_bug (cid : List Byte → String)
    (comp : List Byte → List Byte) (onServer : String → Bool) :
    chunkFile cid comp [] = [] ∧
    (creatorFileStep none ⟨"e.txt", 0, 0, none⟩ onServer
        (chunkFile cid comp [])).1.blocks = none ∧
    manifestFileEntries
        [(creatorFileStep none ⟨"e.txt", 0, 0, none⟩ onServer
          (chunkFile cid comp [])).1] = [] ∧
    restoreFileBytes (fun _ => none) none = some [] ∧
    restoreFileBytes (fun _ => none) (some []) = some [] :=
  ⟨rfl, rfl, rfl, rfl, rfl⟩

/-- Fetching the single block of a one-block entry writes exactly the
fetched bytes. -/
theorem restoreFileBytes_single (fetch : String → Option (List Byte))
    (k : String) (d : List Byte) (h : fetch k = some d) :
    restoreFileBytes fetch (some [k]) = some d := by
  simp only [restoreFileBytes, Option.getD_some, List.isEmpty_cons, if_false]
  rw [show ([k].mapM fetch) = some [d] from by
    simp [List.mapM, List.mapM.loop, h]]
  simp

/-- **C1** — the backup/restore round trip is a code bug for every file
the compressor actually shrinks.  The server stores and serves the
compressed chunk bytes, the client's `decompressingFetcher` returns them
as-is (its own comment says the decompression is still missing), and
`restoreFile` writes the fetched bytes verbatim: backing up the 4-byte
file `00 00 00 00` with the §4.1-conforming `toyCompress` and restoring it
yields the 2-byte stored block `[0, 4]`, not the original bytes — for
every CID generator `cid`, in particular the real `cid.Generate`. -/
theorem C1_roundtrip_code_bug (cid : List Byte → String) :
    restoreFileBytes
        (decompressingFetcherDownload
          (backupFile cid toyCompress emptyStorage (List.replicate 4 0) 0).1)
        (some (backupFile cid toyCompress emptyStorage
          (List.replicate 4 0) 0).2) =
      some [0, 4] ∧
    toyDecompress [0, 4] (List.replicate 4 (0 : Byte)).length =
      List.replicate 4 (0 : Byte) ∧
    some [0, 4] ≠ some (List.replicate 4 (0 : Byte)) := by
  have hchunk : chunkWindows ChunkSize (List.replicate 4 (0 : Byte)) =
      [List.replicate 4 (0 : Byte)] :=
    chunkWindows_single _ _ (by decide) (by decide)
  have hcomp : toyCompress (List.replicate 4 (0 : Byte)) = [0, 4] := by decide
  have hbackup : backupFile cid toyCompress emptyStorage
      (List.replicate 4 0) 0 =
      (⟨[(cid (List.replicate 4 0), ⟨2, 4, some [0, 4], "", 0⟩)], [], [], []⟩,
        [cid (List.replicate 4 0)]) := by
    simp only [backupFile, chunkFile, hchunk, hcomp, List.map_cons,
      List.map_nil, List.foldl_cons, List.foldl_nil]
    simp [BlockExists, SaveBlock, emptyStorage, InlineThreshold, List.lookup]
  refine ⟨?_, by decide, by decide⟩
  rw [hbackup]
  refine restoreFileBytes_single _ _ _ ?_
  simp [decompressingFetcherDownload, GetBlock, List.lookup]

/-- Association-list overwrite (Go map assignment). -/
def assocPut {α : Type} (l : List (String × α)) (k : String) (v : α) :
    List (String × α) :=
  l.filter (fun p => p.1 != k) ++ [(k, v)]

/-- `assocPut` stores the value under the key. -/
theorem lookup_assocPut {α : Type} (l : List (String × α)) (k : String)
    (v : α) : (assocPut l k v).lookup k = some v := by
  unfold assocPut
  induction l with
  | nil => simp [List.lookup]
  | cons p rest ih =>
    obtain ⟨a, b⟩ := p
    by_cases hk : a = k
    · have hf : (a != k) = false := by simp [hk]
      simpa [List.filter_cons, hf] using ih
    · have ht : (a != k) = true := by simp [hk]
      have hke : (k == a) = false := by
        simp only [beq_eq_false_iff_ne, ne_eq]
        exact fun he => hk he.symm
      simp only [List.filter_cons, ht, if_true, List.cons_append, List.lookup, hke]
      exact ih

/-- `RateLimiter` (src/unnamed/part_000 lines 13-31): the map from IP to
the instant until which it is blocked, plus the fixed block period —
15 seconds, from `NewRateLimiter(15 * time.Second)` in server.go line 62. -/
structure RateLimiterState where
  blockedIPs : List (String × Int)
  blockPeriod : Int
deriving DecidableEq, Repr

/-- A freshly constructed rate limiter: no blocked IPs, 15 s period. -/
def initRateLimiter : RateLimiterState := ⟨[], 15⟩

/-- `RateLimiter.IsBlocked` (part_000 lines 34-44): blocked while `now`
is before the recorded instant. -/
def IsBlocked (rl : RateLimiterState) (ip : String) (now : Int) : Bool :=
  match rl.blockedIPs.lookup ip with
  | none => false
  | some t => decide (now < t)

/-- `RateLimiter.BlockIP` (part_000 lines 47-52): records
`now + blockPeriod` for the IP, overwriting any earlier entry. -/
def BlockIP (rl : RateLimiterState) (ip : String) (now : Int) :
    RateLimiterState :=
  { rl with blockedIPs := assocPut rl.blockedIPs ip (now + rl.blockPeriod) }

/-- The `Bearer ` stripping of `Server.authMiddleware` (server.go lines
234-238): the prefix is removed only when the header is *strictly longer*
than the 7-character prefix and starts with it. -/
def stripBearer (token : String) : String :=
  if 7 < token.length ∧ token.take 7 = "Bearer " then token.drop 7 else token

/-- `Server.authMiddleware` (server.go lines 213-250): 429 when the IP is
currently blocked; 401 plus an immediate `BlockIP` when the Authorization
header is missing; otherwise strip the `Bearer ` prefix and compare with
the configured token — mismatch gives 401 plus `BlockIP`, match lets the
request through (rendered as 200 here). -/
def authMiddleware (rl : RateLimiterState) (cfgToken header ip : String)
    (now : Int) : Nat × RateLimiterState :=
  if IsBlocked rl ip now then (429, rl)
  else if header = "" then (401, BlockIP rl ip now)
  else if stripBearer header ≠ cfgToken then (401, BlockIP rl ip now)
  else (200, rl)

/-- **C8** counterexample — there is no strike threshold: the very first
failed attempt (401) immediately blocks the IP for the 15-second window,
so a second request from the same IP one second later is answered 429, not
401 as the claim's "several initial failures within the window each
receive 401" requires. -/
theorem C8_counterexample :
    (authMiddleware initRateLimiter "secret" "Bearer wrong" "1.2.3.4" 0).1 =
      401 ∧
    (authMiddleware
        (authMiddleware initRateLimiter "secret" "Bearer wrong" "1.2.3.4" 0).2
        "secret" "Bearer wrong" "1.2.3.4" 1).1 = 429 ∧
    (429 : Nat) ≠ 401 := by
  decide

/-- **C8** (amended) — Auth failure lockout without strikes: while an IP
is blocked every request short-circuits with 429 and the state is
untouched; a failed attempt (missing header or wrong token) from an
unblocked IP is answered 401 and immediately blocks the IP, so that every
instant strictly before `now + 15` sees it blocked and every instant from
`now + 15` on sees it unblocked again. -/
theorem C8_auth_lockout_amended (rl : RateLimiterState)
    (cfgToken header ip : String) (now : Int) (hper : rl.blockPeriod = 15) :
    (IsBlocked rl ip now = true →
      authMiddleware rl cfgToken header ip now = (429, rl)) ∧
    (IsBlocked rl ip now = false →
      (header = "" ∨ stripBearer header ≠ cfgToken) →
      (authMiddleware rl cfgToken header ip now).1 = 401 ∧
      (∀ t : Int, t < now + 15 →
        IsBlocked (authMiddleware rl cfgToken header ip now).2 ip t = true) ∧
      (∀ t : Int, now + 15 ≤ t →
        IsBlocked (authMiddleware rl cfgToken header ip now).2 ip t = false)) := by
  constructor
  · intro hb
    simp [authMiddleware, hb]
  · intro hnb hbad
    have hstate : authMiddleware rl cfgToken header ip now =
        (401, BlockIP rl ip now) := by
      rcases hbad with hb | hb
      · simp [authMiddleware, hnb, hb]
      · by_cases hh : header = ""
        · simp [authMiddleware, hnb, hh]
        · simp [authMiddleware, hnb, hh, hb]
    rw [hstate]
    have hlook : ((BlockIP rl ip now).blockedIPs.lookup ip) =
        some (now + 15) := by
      rw [show (BlockIP rl ip now).blockedIPs =
          assocPut rl.blockedIPs ip (now + rl.blockPeriod) from rfl,
        lookup_assocPut, hper]
    refine ⟨rfl, ?_, ?_⟩
    · intro t ht
      simp [IsBlocked, hlook, ht]
    · intro t ht
      simp [IsBlocked, hlook]
      omega

/-- Witness for C8 (amended): with a fresh limiter, IP `1.2.3.4` and a
wrong token at time 0, the failure is a 401, the IP is blocked at time 14,
unblocked at time 15 — and a request while blocked is a 429. -/
theorem C8_witness :
    (authMiddleware initRateLimiter "secret" "x" "1.2.3.4" 0).1 = 401 ∧
    IsBlocked (authMiddleware initRateLimiter "secret" "x" "1.2.3.4" 0).2
      "1.2.3.4" 14 = true ∧
    IsBlocked (authMiddleware initRateLimiter "secret" "x" "1.2.3.4" 0).2
      "1.2.3.4" 15 = false ∧
    authMiddleware (authMiddleware initRateLimiter "secret" "x" "1.2.3.4" 0).2
      "secret" "x" "1.2.3.4" 3 =
      (429, (authMiddleware initRateLimiter "secret" "x" "1.2.3.4" 0).2) := by
  have h := (C8_auth_lockout_amended initRateLimiter "secret" "x" "1.2.3.4" 0
    rfl).2 (by decide) (Or.inr (by decide))
  have hb := (C8_auth_lockout_amended
    (authMiddleware initRateLimiter "secret" "x" "1.2.3.4" 0).2
    "secret" "x" "1.2.3.4" 3 rfl).1
    (h.2.1 3 (by decide))
  exact ⟨h.1, h.2.1 14 (by decide), h.2.2 15 (by decide), hb⟩

/-- The claim's reading of the strip rule, following its words: remove a
leading `Bearer ` prefix whenever one is present. -/
def stripBearerClaim (token : String) : String :=
  if List.isPrefixOf "Bearer ".data token.data then token.drop 7 else token

/-- **C10** counterexample — two corners where the claim and the code
disagree.  (a) With configured token `Bearer ` and header `Bearer `, the
code accepts (no stripping happens, the header is not strictly longer than
the prefix) although the claim's rule strips the present prefix to the
empty string, which differs from the token, so the claim predicts 401.
(b) With configured token `Bearer xy`, the header holding the bare token
is rejected 401 by the code (the prefix *is* stripped, leaving `xy`),
although the claim says a header containing the bare token is accepted. -/
theorem C10_counterexample :
    ((authMiddleware initRateLimiter "Bearer " "Bearer " "1.2.3.4" 0).1 =
        200 ∧
      stripBearerClaim "Bearer " = "" ∧ ("" : String) ≠ "Bearer ") ∧
    ((authMiddleware initRateLimiter "Bearer xy" "Bearer xy" "1.2.3.4" 0).1 =
        401 ∧
      (401 : Nat) ≠ 200) := by
  decide

/-- **C10** (amended) — Bearer prefix optional: for an unblocked IP,
authentication succeeds exactly when the header is nonempty and, after
stripping a leading `Bearer ` only when the header is strictly longer than
that prefix, equals the configured token; in particular a header holding
the bare token is accepted whenever stripping leaves the token itself
unchanged (i.e. the token does not look like `Bearer <rest>`). -/
theorem C10_bearer_optional_amended (rl : RateLimiterState)
    (cfgToken header ip : String) (now : Int)
    (hnb : IsBlocked rl ip now = false) :
    ((authMiddleware rl cfgToken header ip now).1 = 200 ↔
      (header ≠ "" ∧ stripBearer header = cfgToken)) ∧
    (stripBearer cfgToken = cfgToken → cfgToken ≠ "" →
      (authMiddleware rl cfgToken cfgToken ip now).1 = 200) := by
  constructor
  · constructor
    · intro h200
      by_cases hh : header = ""
      · simp [authMiddleware, hnb, hh] at h200
      · by_cases hs : stripBearer header = cfgToken
        · exact ⟨hh, hs⟩
        · simp [authMiddleware, hnb, hh, hs] at h200
    · rintro ⟨hh, hs⟩
      simp [authMiddleware, hnb, hh, hs]
  · intro hstrip hne
    simp [authMiddleware, hnb, hne, hstrip]

/-- Witness for C10 (amended): token `s3cret` with the bare header and
with the `Bearer `-prefixed header both authenticate on a fresh limiter. -/
theorem C10_witness :
    (authMiddleware initRateLimiter "s3cret" "s3cret" "1.2.3.4" 0).1 = 200 ∧
    (authMiddleware initRateLimiter "s3cret" "Bearer s3cret" "1.2.3.4" 0).1 =
      200 := by
  have h1 := (C10_bearer_optional_amended initRateLimiter "s3cret" "s3cret"
    "1.2.3.4" 0 (by decide)).2 (by decide) (by decide)
  have h2 := ((C10_bearer_optional_amended initRateLimiter "s3cret"
    "Bearer s3cret" "1.2.3.4" 0 (by decide)).1).mpr (by decide)
  exact ⟨h1, h2⟩

/-- Decimal digit run: `none` on an empty run or a stray character. -/
def parseDigits (cs : List Char) : Option Nat :=
  if cs.isEmpty then none
  else cs.foldl
    (fun acc c => acc.bind (fun n =>
      if c.isDigit then some (n * 10 + (c.toNat - 48)) else none))
    (some 0)

/-- Go `strconv.ParseInt(s, 10, 64)` restricted to what the handler
exercises: optional sign and decimal digits; `none` models the parse error
(empty string, stray characters).  Int64 saturation is irrelevant here. -/
def goParseInt (s : String) : Option Int :=
  match s.data with
  | '-' :: rest => (parseDigits rest).map (fun n => -(n : Int))
  | '+' :: rest => (parseDigits rest).map (fun n => (n : Int))
  | cs => (parseDigits cs).map (fun n => (n : Int))

/-- `Server.handleUploadBlock` (api.go lines 193-219) after
authentication: a missing `X-Block-CID` header (Gin's `GetHeader` yields
the empty string) is rejected 400 before anything is stored; the
`X-Original-Size` header is run through `strconv.ParseInt` *with the error
discarded* (line 201), so a missing or malformed value silently becomes 0
and the block is saved and answered 201. -/
def handleUploadBlock (st : StorageState) (hdrCID hdrOriginalSize : String)
    (body : List Byte) (now : Int) : Nat × StorageState :=
  if hdrCID = "" then (400, st)
  else (201, SaveBlock st hdrCID body ((goParseInt hdrOriginalSize).getD 0) now)

/-- **C9** counterexample — a request with a valid cid but *no*
`X-Original-Size` header is not rejected: the handler stores the block
with `original_size = 0` and answers 201, where the claim requires 400 and
nothing stored. -/
theorem C9_counterexample :
    (handleUploadBlock emptyStorage "abc" "" [1, 2, 3] 0).1 = 201 ∧
    (handleUploadBlock emptyStorage "abc" "" [1, 2, 3] 0).2.blocks =
      [("abc", ⟨3, 0, some [1, 2, 3], "", 0⟩)] ∧
    (201 : Nat) ≠ 400 := by
  decide

/-- **C9** (amended) — Missing-header rejection holds only for the cid
header: a request without `X-Block-CID` is answered 400 with the store
untouched; a request whose `X-Original-Size` is missing or unparsable is
*not* rejected — the parse error is discarded, the block is stored with
`original_size = 0`, and the response is 201. -/
theorem C9_missing_header_amended (st : StorageState)
    (hdrCID hdrOriginalSize : String) (body : List Byte) (now : Int) :
    (hdrCID = "" →
      handleUploadBlock st hdrCID hdrOriginalSize body now = (400, st)) ∧
    (hdrCID ≠ "" → goParseInt hdrOriginalSize = none →
      st.blocks.lookup hdrCID = none →
      (handleUploadBlock st hdrCID hdrOriginalSize body now).1 = 201 ∧
      (handleUploadBlock st hdrCID hdrOriginalSize body now).2.blocks.lookup
          hdrCID =
        some ⟨body.length, 0,
          if body.length < InlineThreshold then some body else none,
          if body.length < InlineThreshold then "" else hdrCID, now⟩) := by
  constructor
  · intro h
    simp [handleUploadBlock, h]
  · intro hcid hparse hfresh
    refine ⟨by simp [handleUploadBlock, hcid], ?_⟩
    simp only [handleUploadBlock, if_neg hcid, hparse, Option.getD_none]
    unfold SaveBlock
    simp only [hfresh, Option.isSome_none, Bool.false_eq_true, if_false]
    exact lookup_append_fresh _ _ _ hfresh

/-- Witness for C9 (amended): the empty cid header is a 400 no-op; cid
`abc` with a missing size header stores `[1, 2, 3]` inline with
`original_size = 0` and answers 201. -/
theorem C9_witness :
    handleUploadBlock emptyStorage "" "7" [1] 0 = (400, emptyStorage) ∧
    (handleUploadBlock emptyStorage "abc" "" [1, 2, 3] 0).1 = 201 ∧
    (handleUploadBlock emptyStorage "abc" "" [1, 2, 3] 0).2.blocks.lookup
        "abc" = some ⟨3, 0, some [1, 2, 3], "", 0⟩ := by
  have h1 := (C9_missing_header_amended emptyStorage "" "7" [1] 0).1 rfl
  have h2 := (C9_missing_header_amended emptyStorage "abc" "" [1, 2, 3] 0).2
    (by decide) (by decide) rfl
  refine ⟨h1, h2.1, ?_⟩
  rw [h2.2]
  decide

/-- Go `filepath.Base` on the forward-slash paths of manifest entries:
`.` for the empty path, `/` when only slashes remain, else the last
element after dropping trailing slashes. -/
def basename (p : String) : String :=
  if p = "" then "."
  else
    let cs := p.data.reverse.dropWhile (fun c => c == '/')
    if cs.isEmpty then "/"
    else ⟨(cs.takeWhile (fun c => !(c == '/'))).reverse⟩

/-- Go `strings.TrimPrefix(s, pre)`. -/
def goTrimPre (s pre : String) : String :=
  if List.isPrefixOf pre.data s.data then s.drop pre.length else s

/-- The per-entry path rewriting of `Server.streamTarGz` and
`Server.streamZip` (api.go lines 513-522 and 579-587): with a strip
prefix, the entry whose path equals it becomes `filepath.Base` of the
path; every other entry has the prefix plus `/` trimmed off its front. -/
def archiveEntryPath (stripPre entryPath : String) : String :=
  if stripPre = "" then entryPath
  else if entryPath = stripPre then basename entryPath
  else goTrimPre entryPath (stripPre ++ "/")

/-- The folder filter of `Server.handleDownloadFolder` (api.go lines
380-389): keep the entry at the folder path itself and every entry under
`folderPath + "/"`. -/
def folderFilter (folderPath : String) (paths : List String) : List String :=
  paths.filter
    (fun p => p == folderPath || List.isPrefixOf (folderPath ++ "/").data p.data)

/-- The archive member names a folder download emits, in manifest order
(directory entries additionally get a trailing `/` in the tar header,
which is irrelevant to the path computation). -/
def folderArchivePaths (folderPath : String) (paths : List String) :
    List String :=
  (folderFilter folderPath paths).map (archiveEntryPath folderPath)

/-- The claim's re-rooting rule, following the spec's words (§4.7 and §8
scenario 5): entries strictly under the prefix keep the prefix's basename
as their root, e.g. `proj/src/main.rs` under prefix `proj/src` becomes
`src/main.rs`. -/
def claimArchiveEntryPath (stripPre entryPath : String) : String :=
  if stripPre = "" then entryPath
  else if entryPath = stripPre then basename stripPre
  else basename stripPre ++ "/" ++ goTrimPre entryPath (stripPre ++ "/")

/-- **C7** counterexample — the spec's own scenario: a manifest holding
`proj/src` (dir), `proj/src/main.rs` and `proj/docs/readme.md`, downloaded
with prefix `proj/src`, emits member names `src` and `main.rs`: children
of the prefix are fully stripped, not re-rooted under `src/` as the claim
(`src/main.rs`) requires. -/
theorem C7_counterexample :
    folderArchivePaths "proj/src"
        ["proj/src", "proj/src/main.rs", "proj/docs/readme.md"] =
      ["src", "main.rs"] ∧
    claimArchiveEntryPath "proj/src" "proj/src/main.rs" = "src/main.rs" ∧
    ("main.rs" : String) ≠ "src/main.rs" := by
  decide

/-- **C7** (amended) — Archive prefix handling: for a nonempty prefix `P`,
the entry whose path equals `P` is emitted under `basename P`, and every
entry strictly under `P` is emitted with `P + "/"` stripped, i.e. at its
path relative to `P` (not re-rooted under the basename). -/
theorem C7_archive_rerooting_amended (P e : String) (hP : P ≠ "") :
    (e = P → archiveEntryPath P e = basename P) ∧
    (List.isPrefixOf (P ++ "/").data e.data → e ≠ P →
      archiveEntryPath P e = e.drop (P.length + 1)) := by
  constructor
  · intro he
    subst he
    simp [archiveEntryPath, hP]
  · intro hpre hne
    simp only [archiveEntryPath, if_neg hP, if_neg hne]
    unfold goTrimPre
    rw [if_pos hpre]
    show e.drop (P ++ "/").length = e.drop (P.length + 1)
    rw [String.length_append]
    rfl

/-- Witness for C7 (amended): prefix `proj/src` maps the entry `proj/src`
to `src` and the entry `proj/src/main.rs` to `main.rs`. -/
theorem C7_witness :
    archiveEntryPath "proj/src" "proj/src" = basename "proj/src" ∧
    archiveEntryPath "proj/src" "proj/src/main.rs" =
      String.drop "proj/src/main.rs" ("proj/src".length + 1) := by
  have h1 := (C7_archive_rerooting_amended "proj/src" "proj/src"
    (by decide)).1 rfl
  have h2 := (C7_archive_rerooting_amended "proj/src" "proj/src/main.rs"
    (by decide)).2 (by decide) (by decide)
  exact ⟨h1, h2⟩
